import Mathlib

/-!
# Verification of `rabbit-queue-manager`

Shallow embedding of `src/rabbit_queue_manager.py` (class `RabbitQueueManager`)
and, where the `rabbit_manager.py` module of the repository is referenced by the
spec and by `src/test.py` but absent from `src/`, a model of that module built
from the words of the spec.

The broker and the network are modelled by explicit fault schedules: each
protocol attempt (connect, publish, fetch) draws its outcome from a list
supplied to the operation.  An empty (or exhausted) schedule means the attempt
succeeds, mirroring a healthy broker.  Stateful Python code becomes explicit
state passing; raised exceptions become `Except.error`.
-/

namespace RQM

/-- Outcome of one `pika.BlockingConnection(...)` attempt inside
`_open_connection`. -/
inductive ConnOutcome where
  | ok
  | authErr
  | connErr
  deriving DecidableEq, Repr

/-- Outcome of one `basic_publish` attempt inside `add_to_queue`.
`unroutable` models a publish the broker cannot route: with no confirm mode
and `mandatory` unset (as in the source), the call returns normally and the
message is dropped. -/
inductive PubOutcome where
  | ok
  | unroutable
  | streamLost
  | otherErr
  deriving DecidableEq, Repr

/-- Outcome of one `basic_get` attempt inside `_receive_message`. -/
inductive GetOutcome where
  | ok
  | chanClosed
  | streamLost
  | otherErr
  deriving DecidableEq, Repr

/-- Exceptions that can escape a `RabbitQueueManager` operation. -/
inductive RQErr where
  | auth
  | connErr
  | streamLost
  | generic
  deriving DecidableEq, Repr

/-- The manager together with the broker-side queue it talks to.
`hasConn`/`connOpen` model `self._connection`/`self._connection.is_open`;
`hasChannel` models whether the `self._channel` attribute was ever set;
`queue` is the broker queue contents (FIFO, head = next delivery);
`acked` records every delivery tag passed to `basic_ack`, in order;
`nextTag` is the next broker-assigned delivery tag;
`declared` records each queue name passed to `queue_declare`, in order;
`opens` counts the calls to `_open_connection`. -/
structure Mgr where
  queue_name : String
  hasConn : Bool
  connOpen : Bool
  hasChannel : Bool
  queue : List String
  acked : List Nat
  nextTag : Nat
  declared : List String
  opens : Nat
  deriving DecidableEq, Repr

/-- Models `_open_connection`: on success, sets up connection, channel and declares
the queue (with only the queue name, as in the source).  A
`ProbableAuthenticationError` is caught and only printed, so the method
returns normally with the connection state unchanged.  Any other exception is
logged and re-raised. -/
def open_connection (c : ConnOutcome) (st : Mgr) : Except RQErr Mgr :=
  let st := { st with opens := st.opens + 1 }
  match c with
  | .ok =>
      .ok { st with hasConn := true, connOpen := true, hasChannel := true,
                    declared := st.declared ++ [st.queue_name] }
  | .authErr => .ok st
  | .connErr => .error .connErr

/-- The connection-liveness test `self._connection and self._connection.is_open`
used by `_close`, `_receive_message` and `get_size`. -/
def connAlive (st : Mgr) : Bool :=
  st.hasConn && st.connOpen

/-- Models `_close`: closes the connection only when one exists and is currently
open; otherwise does nothing.  Total, hence never raises. -/
def close (st : Mgr) : Mgr :=
  if connAlive st then { st with connOpen := false } else st

/-- Models `__init__(queue_name)`: stores the queue name, sets `_connection = None`,
then calls `_open_connection`.  `bq` is the broker queue contents at
construction time. -/
def init (queueName : String) (bq : List String) (c : ConnOutcome) :
    Except RQErr Mgr :=
  open_connection c
    { queue_name := queueName, hasConn := false, connOpen := false,
      hasChannel := false, queue := bq, acked := [], nextTag := 0,
      declared := [], opens := 0 }

/-- The reconnect-if-dead prelude of `_receive_message` / `get_size`. -/
def ensure_open (c : ConnOutcome) (st : Mgr) : Except RQErr Mgr :=
  if connAlive st then .ok st else open_connection c st

/-- One add attempt: the publish outcome, paired with the outcome of the
`_open_connection` call made if the publish raises `StreamLostError`. -/
structure AddRound where
  pub : PubOutcome
  reconn : ConnOutcome
  deriving DecidableEq, Repr

/-- Models `add_to_queue(item)`: publishes to the default exchange with the queue
name as routing key.  On `StreamLostError` it reopens and recursively calls
itself; on any other exception it logs and re-raises.  The Python function
returns `None` on every non-raising path (its annotation is `-> None`); the
returned value is modelled as an `Option Bool` so that the absence of a
boolean result is visible, and it is always `none`.  An exhausted schedule
means every further publish attempt succeeds. -/
def add_to_queue : List AddRound → Mgr → String → Except RQErr (Option Bool × Mgr)
  | [], st, item => .ok (none, { st with queue := st.queue ++ [item] })
  | r :: rest, st, item =>
      match r.pub with
      | .ok => .ok (none, { st with queue := st.queue ++ [item] })
      | .unroutable => .ok (none, st)
      | .streamLost =>
          match open_connection r.reconn st with
          | .error e => .error e
          | .ok st' => add_to_queue rest st' item
      | .otherErr => .error .generic

/-- One receive attempt: the connect outcome drawn if the liveness check at
the top of `_receive_message` fails, the `basic_get` outcome, and the connect
outcome drawn if `basic_get` raises `StreamLostError`. -/
structure RecvRound where
  ensure : ConnOutcome
  fetch : GetOutcome
  reconn : ConnOutcome
  deriving DecidableEq, Repr

/-- The successful-fetch tail of `_receive_message`: `basic_get` returns the
head of the queue (or nothing), the delivery tag is acknowledged with
`basic_ack`, and the decoded body is returned. -/
def fetch_ok (st : Mgr) : Option String × Mgr :=
  match st.queue with
  | [] => (none, st)
  | m :: rest =>
      (some m, { st with queue := rest, nextTag := st.nextTag + 1,
                         acked := st.acked ++ [st.nextTag] })

/-- Models `_receive_message`: reconnects if the connection is dead, then issues a
single `basic_get`.  `ChannelClosedByBroker` closes the connection and falls
through to the no-message path (returns `None`); `StreamLostError` reopens
and recursively calls the whole method; any other exception closes the
connection and is re-raised.  On a delivered message the tag is acknowledged
and the decoded body returned.  An exhausted schedule means every further
attempt succeeds. -/
def receive_message : List RecvRound → Mgr → Except RQErr (Option String × Mgr)
  | [], st =>
      match ensure_open .ok st with
      | .error e => .error e
      | .ok st1 => .ok (fetch_ok st1)
  | r :: rest, st =>
      match ensure_open r.ensure st with
      | .error e => .error e
      | .ok st1 =>
          match r.fetch with
          | .ok => .ok (fetch_ok st1)
          | .chanClosed => .ok (none, close st1)
          | .streamLost =>
              match open_connection r.reconn st1 with
              | .error e => .error e
              | .ok st2 => receive_message rest st2
          | .otherErr => .error .generic

/-- Models `add_list_to_queue(items)`: calls `add_to_queue` on each element in list
order, with the i-th add drawing from the i-th schedule. -/
def add_list_to_queue : List (List AddRound) → Mgr → List String →
    Except RQErr (Option Bool × Mgr)
  | _, st, [] => .ok (none, st)
  | scheds, st, item :: rest =>
      match add_to_queue (scheds.headD []) st item with
      | .error e => .error e
      | .ok (_, st') => add_list_to_queue scheds.tail st' rest

/-- Models `get_next()`: returns `self._receive_message()`. -/
def get_next (rounds : List RecvRound) (st : Mgr) :
    Except RQErr (Option String × Mgr) :=
  receive_message rounds st

/-- What one `__next__` call hands to the iteration protocol. -/
inductive NextResult where
  | item (m : String)
  | stopIteration
  deriving DecidableEq, Repr

/-- Models `__next__`: calls `_receive_message`; raises `StopIteration` when it
returns `None`, otherwise yields the message. -/
def next (rounds : List RecvRound) (st : Mgr) :
    Except RQErr (NextResult × Mgr) :=
  match receive_message rounds st with
  | .error e => .error e
  | .ok (none, st') => .ok (.stopIteration, st')
  | .ok (some m, st') => .ok (.item m, st')

/-- Whether an operation result is a propagated transport-loss error. -/
def isStreamLostErr {α : Type} : Except RQErr α → Bool
  | .error .streamLost => true
  | _ => false

/-- One step of the fold of single adds: feed the next item to `add_to_queue`
with the head schedule, threading the remaining schedules and the state. -/
def foldStep (acc : Except RQErr (List (List AddRound) × Mgr)) (item : String) :
    Except RQErr (List (List AddRound) × Mgr) :=
  match acc with
  | .error e => .error e
  | .ok (scheds, st) =>
      match add_to_queue (scheds.headD []) st item with
      | .error e => .error e
      | .ok (_, st') => .ok (scheds.tail, st')

/-- Stated from the words of claim C10 (its refinement side): the fold of
single `add_to_queue` calls over the elements of the list in list order. -/
def foldAdds (scheds : List (List AddRound)) (st : Mgr) (items : List String) :
    Except RQErr (Option Bool × Mgr) :=
  match items.foldl foldStep (.ok (scheds, st)) with
  | .error e => .error e
  | .ok (_, st') => .ok (none, st')

/-- A freshly constructed manager on "q" with a live connection and an empty
broker queue. -/
def m0 : Mgr :=
  { queue_name := "q", hasConn := true, connOpen := true, hasChannel := true,
    queue := [], acked := [], nextTag := 0, declared := [], opens := 0 }

/-- Like `m0` but with one pending message. -/
def m1 : Mgr := { m0 with queue := ["hello"] }

/-- The state after fetching (and acknowledging) the message of `m1`. -/
def m1' : Mgr := { m0 with acked := [0], nextTag := 1 }

/-- State `m0` after a publish of "x". -/
def m0x : Mgr := { m0 with queue := ["x"] }

/-- State `m0` after an add of "x" whose first two publish attempts lost the
transport: two reopens (each re-declaring the queue), then success. -/
def mCex : Mgr := { m0 with queue := ["x"], declared := ["q", "q"], opens := 2 }

/-- A manager on "q" whose connection was never established. -/
def mClosed : Mgr :=
  { queue_name := "q", hasConn := false, connOpen := false, hasChannel := false,
    queue := [], acked := [], nextTag := 0, declared := [], opens := 0 }

/-- The instance `__init__("q")` returns when the broker rejects the
credentials: the constructor completes, but no connection, channel or queue
declaration exists. -/
def mAuthFail : Mgr := { mClosed with opens := 1 }

/-- The instance `__init__("q2")` returns when the broker rejects the
credentials. -/
def mAuthFail2 : Mgr := { mAuthFail with queue_name := "q2" }

end RQM

namespace RManager

/-- Modelled from the spec: the constructor parameters of `RabbitManager`
(`rabbit_manager.py`, absent from `src/`): host, port, username, password,
queue name, durable flag, TTL minutes, confirm-delivery flag; immutable after
construction. -/
structure Config where
  host : String
  port : Nat
  username : String
  password : String
  queue_name : String
  queue_durable : Bool
  message_ttl_minutes : Nat
  confirm_delivery : Bool
  deriving DecidableEq, Repr

/-- One `queue_declare` call as issued to the broker: queue name, durable
flag, and the declare-arguments table (here only `x-message-ttl`,
milliseconds). -/
structure DeclareCall where
  queue : String
  durable : Bool
  arguments : List (String × Nat)
  deriving DecidableEq, Repr

/-- Connection-side state of a `RabbitManager`. -/
structure MState where
  hasConn : Bool
  connOpen : Bool
  hasChannel : Bool
  confirmOn : Bool
  declares : List DeclareCall
  opens : Nat
  deriving DecidableEq, Repr

/-- Errors `RabbitManager.open` can raise. -/
inductive MErr where
  | auth
  | connErr
  deriving DecidableEq, Repr

/-- Modelled from the spec: the declare-arguments table — TTL is converted to
milliseconds (`minutes * 60000`) and passed as a queue-declare argument only
when positive. -/
def ttlArguments (cfg : Config) : List (String × Nat) :=
  if 0 < cfg.message_ttl_minutes then
    [("x-message-ttl", cfg.message_ttl_minutes * 60000)]
  else []

/-- Modelled from the spec: `RabbitManager.open` (`rabbit_manager.py` is
absent from `src/`; this follows spec §4.1 and §6, and matches the
expectations of `src/test.py`): establishes session and channel, enables
confirmation mode if configured, and declares the queue with the durable flag
and the TTL arguments; authentication rejection raises immediately, any other
setup failure raises a connection error. -/
def openManager (cfg : Config) (c : RQM.ConnOutcome) (st : MState) :
    Except MErr MState :=
  match c with
  | .ok =>
      .ok { st with hasConn := true, connOpen := true, hasChannel := true,
                    confirmOn := st.confirmOn || cfg.confirm_delivery,
                    declares := st.declares ++
                      [⟨cfg.queue_name, cfg.queue_durable, ttlArguments cfg⟩],
                    opens := st.opens + 1 }
  | .authErr => .error .auth
  | .connErr => .error .connErr

/-- A manager state before any `open`. -/
def mR0 : MState :=
  { hasConn := false, connOpen := false, hasChannel := false,
    confirmOn := false, declares := [], opens := 0 }

/-- The configuration of the TTL scenario in the spec: queue "q1", durable, TTL of
10 minutes, confirms on. -/
def cfg10 : Config :=
  { host := "localhost", port := 5672, username := "guest", password := "guest",
    queue_name := "q1", queue_durable := true, message_ttl_minutes := 10,
    confirm_delivery := true }

/-- State `mR0` after `open` under `cfg10`. -/
def mR10 : MState :=
  { hasConn := true, connOpen := true, hasChannel := true, confirmOn := true,
    declares := [⟨"q1", true, [("x-message-ttl", 600000)]⟩], opens := 1 }

end RManager

namespace RQM

/-! ## Helper lemmas -/

/-- A successful `_open_connection` never touches the broker queue, the ack
log or the tag counter. -/
lemma open_connection_preserves {c : ConnOutcome} {st st' : Mgr}
    (h : open_connection c st = .ok st') :
    st'.queue = st.queue ∧ st'.acked = st.acked ∧ st'.nextTag = st.nextTag := by
  cases c <;> simp [open_connection] at h <;> simp [← h]

/-- A successful `ensure_open` never touches the broker queue, the ack log or
the tag counter. -/
lemma ensure_open_preserves {c : ConnOutcome} {st st' : Mgr}
    (h : ensure_open c st = .ok st') :
    st'.queue = st.queue ∧ st'.acked = st.acked ∧ st'.nextTag = st.nextTag := by
  unfold ensure_open at h
  split at h
  · cases h; exact ⟨rfl, rfl, rfl⟩
  · exact open_connection_preserves h

/-- When the fetch hands back a message, the post-state records one new ack:
the delivery tag of that message. -/
lemma fetch_ok_some {st st' : Mgr} {m : String}
    (h : fetch_ok st = (some m, st')) :
    st'.acked = st.acked ++ [st.nextTag] ∧ st'.nextTag = st.nextTag + 1 := by
  unfold fetch_ok at h
  cases hq : st.queue with
  | nil => simp [hq] at h
  | cons a l => simp [hq] at h; simp [← h.2]

/-- Lemma: `_open_connection` can only raise the generic connection error: the
authentication rejection is swallowed and a stream loss cannot occur while
connecting. -/
lemma open_connection_error {c : ConnOutcome} {st : Mgr} {e : RQErr}
    (h : open_connection c st = .error e) : e = .connErr := by
  cases c <;> simp [open_connection] at h
  exact h.symm

/-- Lemma: `ensure_open` can only raise the generic connection error. -/
lemma ensure_open_error {c : ConnOutcome} {st : Mgr} {e : RQErr}
    (h : ensure_open c st = .error e) : e = .connErr := by
  unfold ensure_open at h
  split at h
  · simp at h
  · exact open_connection_error h

/-- Every error `add_to_queue` can raise is a reopen failure or the generic
re-raise — never the transport-loss error itself. -/
lemma add_to_queue_error :
    ∀ (sched : List AddRound) (st : Mgr) (item : String) (e : RQErr),
      add_to_queue sched st item = .error e → e = .connErr ∨ e = .generic := by
  intro sched
  induction sched with
  | nil => intro st item e h; simp [add_to_queue] at h
  | cons r rest ih =>
      intro st item e h
      cases hp : r.pub <;> simp [add_to_queue, hp] at h
      · cases ho : open_connection r.reconn st with
        | error e' =>
            simp [ho] at h
            exact Or.inl (h ▸ open_connection_error ho)
        | ok st' =>
            simp [ho] at h
            exact ih _ _ _ h
      · exact Or.inr h.symm

/-- Every error `_receive_message` can raise is a reopen failure or the
generic re-raise — never the transport-loss error itself. -/
lemma receive_message_error :
    ∀ (rounds : List RecvRound) (st : Mgr) (e : RQErr),
      receive_message rounds st = .error e → e = .connErr ∨ e = .generic := by
  intro rounds
  induction rounds with
  | nil =>
      intro st e h
      by_cases hc : connAlive st = true <;>
        simp [receive_message, ensure_open, hc, open_connection] at h
  | cons r rest ih =>
      intro st e h
      unfold receive_message at h
      cases he : ensure_open r.ensure st with
      | error e' =>
          simp [he] at h
          exact Or.inl (h ▸ ensure_open_error he)
      | ok st1 =>
          simp [he] at h
          cases hf : r.fetch <;> simp [hf] at h
          · cases ho : open_connection r.reconn st1 with
            | error e' =>
                simp [ho] at h
                exact Or.inl (h ▸ open_connection_error ho)
            | ok st2 =>
                simp [ho] at h
                exact ih _ _ h
          · exact Or.inr h.symm

/-! ## Claim C1 -/

/-- C1 counterexample: an `add` whose first two publish attempts both lose
the transport does not propagate the second transport-loss error — the code
reopens a second time and retries again, succeeding.  The run performs two
reopen attempts (not "exactly one") and returns normally with the message
enqueued. -/
theorem add_two_losses_not_propagated :
    add_to_queue [⟨.streamLost, .ok⟩, ⟨.streamLost, .ok⟩] m0 "x"
      = .ok (none, mCex)
    ∧ mCex.opens = 2 ∧ mCex.queue = ["x"]
    ∧ (add_to_queue [⟨.streamLost, .ok⟩, ⟨.streamLost, .ok⟩] m0 "x").isOk
      = true :=
  ⟨rfl, rfl, rfl, rfl⟩

/-- C1 amended: a transport loss during `add_to_queue` or `_receive_message`
triggers one reopen and a recursive retry each time it occurs, without bound;
a transport-loss error therefore never propagates to the caller.  With `k`
consecutive losses the operation performs exactly `k` reopens (plus one for
the dead-connection prelude of `_receive_message`) and then completes
normally. -/
theorem transport_loss_always_retried :
    (∀ sched st item, isStreamLostErr (add_to_queue sched st item) = false)
    ∧ (∀ rounds st, isStreamLostErr (receive_message rounds st) = false)
    ∧ (∀ k st item, ∃ st',
        add_to_queue (List.replicate k ⟨.streamLost, .ok⟩) st item
          = .ok (none, st')
        ∧ st'.opens = st.opens + k ∧ st'.queue = st.queue ++ [item])
    ∧ (∀ k st, ∃ st',
        receive_message (List.replicate k ⟨.ok, .streamLost, .ok⟩) st
          = .ok (fetch_ok st')
        ∧ st'.opens = st.opens + k + (if connAlive st then 0 else 1)
        ∧ st'.queue = st.queue ∧ st'.acked = st.acked) := by
  refine ⟨?_, ?_, ?_, ?_⟩
  · intro sched st item
    cases h : add_to_queue sched st item with
    | ok v => simp [isStreamLostErr]
    | error e =>
        rcases add_to_queue_error sched st item e h with rfl | rfl <;>
          simp [isStreamLostErr]
  · intro rounds st
    cases h : receive_message rounds st with
    | ok v => simp [isStreamLostErr]
    | error e =>
        rcases receive_message_error rounds st e h with rfl | rfl <;>
          simp [isStreamLostErr]
  · intro k
    induction k with
    | zero =>
        intro st item
        exact ⟨_, rfl, by simp, rfl⟩
    | succ k ih =>
        intro st item
        have hstep :
            add_to_queue (List.replicate (k + 1) ⟨.streamLost, .ok⟩) st item
              = add_to_queue (List.replicate k ⟨.streamLost, .ok⟩)
                  { st with opens := st.opens + 1, hasConn := true,
                            connOpen := true, hasChannel := true,
                            declared := st.declared ++ [st.queue_name] } item := by
          simp [List.replicate, add_to_queue, open_connection]
        obtain ⟨st', h1, h2, h3⟩ := ih
          { st with opens := st.opens + 1, hasConn := true, connOpen := true,
                    hasChannel := true,
                    declared := st.declared ++ [st.queue_name] } item
        refine ⟨st', hstep ▸ h1, ?_, h3⟩
        simp at h2
        omega
  · intro k
    induction k with
    | zero =>
        intro st
        by_cases hc : connAlive st = true
        · refine ⟨st, ?_, by simp [hc], rfl, rfl⟩
          unfold receive_message ensure_open
          simp [hc]
        · have hc' : connAlive st = false := by
            simpa using hc
          refine ⟨{ st with opens := st.opens + 1, hasConn := true,
                            connOpen := true, hasChannel := true,
                            declared := st.declared ++ [st.queue_name] },
                  ?_, by simp [hc'], rfl, rfl⟩
          unfold receive_message ensure_open
          simp [hc', open_connection]
    | succ k ih =>
        intro st
        by_cases hc : connAlive st = true
        · have hstep :
              receive_message
                  (List.replicate (k + 1) ⟨.ok, .streamLost, .ok⟩) st
                = receive_message (List.replicate k ⟨.ok, .streamLost, .ok⟩)
                    { st with opens := st.opens + 1, hasConn := true,
                              connOpen := true, hasChannel := true,
                              declared := st.declared ++ [st.queue_name] } := by
            simp [List.replicate, receive_message, ensure_open, hc,
                  open_connection]
          obtain ⟨st', h1, h2, h3, h4⟩ := ih
            { st with opens := st.opens + 1, hasConn := true, connOpen := true,
                      hasChannel := true,
                      declared := st.declared ++ [st.queue_name] }
          have hmid : connAlive
              { st with opens := st.opens + 1, hasConn := true,
                        connOpen := true, hasChannel := true,
                        declared := st.declared ++ [st.queue_name] } = true := rfl
          rw [hmid] at h2
          refine ⟨st', hstep ▸ h1, ?_, h3, h4⟩
          rw [hc]
          simp at h2 ⊢
          omega
        · have hc' : connAlive st = false := by
            simpa using hc
          have hstep :
              receive_message
                  (List.replicate (k + 1) ⟨.ok, .streamLost, .ok⟩) st
                = receive_message (List.replicate k ⟨.ok, .streamLost, .ok⟩)
                    { st with opens := st.opens + 2, hasConn := true,
                              connOpen := true, hasChannel := true,
                              declared := st.declared
                                ++ [st.queue_name, st.queue_name] } := by
            simp [List.replicate, receive_message, ensure_open, hc',
                  open_connection]
          obtain ⟨st', h1, h2, h3, h4⟩ := ih
            { st with opens := st.opens + 2, hasConn := true, connOpen := true,
                      hasChannel := true,
                      declared := st.declared
                        ++ [st.queue_name, st.queue_name] }
          have hmid : connAlive
              { st with opens := st.opens + 2, hasConn := true,
                        connOpen := true, hasChannel := true,
                        declared := st.declared
                          ++ [st.queue_name, st.queue_name] } = true := rfl
          rw [hmid] at h2
          refine ⟨st', hstep ▸ h1, ?_, h3, h4⟩
          rw [hc']
          simp at h2 ⊢
          omega

/-! ## Claim C2 -/

/-- C2, evaluated at the failing input: when the broker rejects the
credentials, `_open_connection` (and hence the constructor) completes
normally instead of raising — the exception is caught and only printed, and
the resulting manager has neither connection nor channel. -/
theorem open_connection_swallows_auth :
    open_connection .authErr mClosed = .ok mAuthFail
    ∧ init "q" [] .authErr = .ok mAuthFail
    ∧ mAuthFail.hasConn = false ∧ mAuthFail.hasChannel = false
    ∧ (open_connection .authErr mClosed).isOk = true :=
  ⟨rfl, rfl, rfl, rfl, rfl⟩

/-! ## Claim C3 -/

/-- C3 counterexample: `add_to_queue` hands back Python `None` (modelled
`none`) on every non-raising path, never a boolean.  At an unroutable publish
it returns `none` — not `false` — with no exception, no reopen (state
unchanged, `opens` still 0) and the message silently dropped; at a successful
publish it returns `none` — not `true`. -/
theorem add_returns_no_boolean :
    add_to_queue [⟨.unroutable, .ok⟩] m0 "x" = .ok (none, m0)
    ∧ add_to_queue [] m0 "x" = .ok (none, m0x)
    ∧ m0.opens = 0 :=
  ⟨rfl, rfl, rfl⟩

/-- C3 amended: `add_to_queue` returns no boolean — every non-raising call
returns `None`.  An unroutable publish is indistinguishable from success at
the call site: no exception, no reopen, the manager state unchanged (the
source publishes without confirm mode or the mandatory flag, so broker
rejection is invisible). -/
theorem add_always_returns_none :
    (∀ sched st item v st',
        add_to_queue sched st item = .ok (v, st') → v = none)
    ∧ (∀ st item c, add_to_queue [⟨.unroutable, c⟩] st item = .ok (none, st)) := by
  constructor
  · intro sched
    induction sched with
    | nil =>
        intro st item v st' h
        simp [add_to_queue] at h
        exact h.1.symm
    | cons r rest ih =>
        intro st item v st' h
        cases hp : r.pub <;> simp [add_to_queue, hp] at h
        · exact h.1.symm
        · exact h.1.symm
        · cases ho : open_connection r.reconn st with
          | error e => simp [ho] at h
          | ok stO =>
              simp [ho] at h
              exact ih _ _ _ _ h
  · intro st item c
    simp [add_to_queue]

/-- Witness for the C3 amended theorem at a concrete input: a successful add
on `m0` returns `None`. -/
theorem add_always_returns_none_witness :
    add_to_queue [] m0 "x" = .ok (none, m0x)
    ∧ (none : Option Bool) = none :=
  ⟨rfl, add_always_returns_none.1 [] m0 "x" none m0x rfl⟩

/-! ## Claim C4 -/

/-- C4: whenever `_receive_message` (hence `get_next` and each `__next__`
iteration step) hands a message to the caller, the post-state it returns
already records the acknowledgement of the delivery tag of that message — exactly
one new tag, acknowledged before the hand-off.  No message is ever returned
unacknowledged. -/
theorem consumed_message_acked_before_return :
    (∀ rounds st m st',
        receive_message rounds st = .ok (some m, st') →
        st'.acked = st.acked ++ [st.nextTag] ∧ st'.nextTag = st.nextTag + 1)
    ∧ (∀ rounds st m st',
        next rounds st = .ok (.item m, st') →
        st'.acked = st.acked ++ [st.nextTag] ∧ st'.nextTag = st.nextTag + 1)
    ∧ (∀ rounds st m st',
        get_next rounds st = .ok (some m, st') →
        st'.acked = st.acked ++ [st.nextTag] ∧ st'.nextTag = st.nextTag + 1) := by
  have hmain : ∀ (rounds : List RecvRound) (st : Mgr) (m : String) (st' : Mgr),
      receive_message rounds st = .ok (some m, st') →
      st'.acked = st.acked ++ [st.nextTag] ∧ st'.nextTag = st.nextTag + 1 := by
    intro rounds
    induction rounds with
    | nil =>
        intro st m st' h
        unfold receive_message at h
        cases he : ensure_open .ok st with
        | error e => simp [he] at h
        | ok st1 =>
            simp [he] at h
            obtain ⟨hp1, hp2, hp3⟩ := ensure_open_preserves he
            obtain ⟨ha, hn⟩ := fetch_ok_some h
            rw [ha, hn, hp2, hp3]
            exact ⟨rfl, rfl⟩
    | cons r rest ih =>
        intro st m st' h
        unfold receive_message at h
        cases he : ensure_open r.ensure st with
        | error e => simp [he] at h
        | ok st1 =>
            simp [he] at h
            obtain ⟨hp1, hp2, hp3⟩ := ensure_open_preserves he
            cases hf : r.fetch <;> simp [hf] at h
            · obtain ⟨ha, hn⟩ := fetch_ok_some h
              rw [ha, hn, hp2, hp3]
              exact ⟨rfl, rfl⟩
            · cases ho : open_connection r.reconn st1 with
              | error e => simp [ho] at h
              | ok st2 =>
                  simp [ho] at h
                  obtain ⟨hq1, hq2, hq3⟩ := open_connection_preserves ho
                  obtain ⟨ha, hn⟩ := ih _ _ _ h
                  rw [ha, hn, hq2, hq3, hp2, hp3]
                  exact ⟨rfl, rfl⟩
  refine ⟨hmain, ?_, ?_⟩
  · intro rounds st m st' h
    unfold next at h
    cases hr : receive_message rounds st with
    | error e => simp [hr] at h
    | ok p =>
        obtain ⟨mo, stx⟩ := p
        cases mo <;> simp [hr] at h
        obtain ⟨rfl, rfl⟩ := h
        exact hmain _ _ _ _ hr
  · intro rounds st m st' h
    exact hmain _ _ _ _ h

/-- Witness for C4 at a concrete input: fetching from a live manager with one
pending message returns it with its tag (0) freshly acknowledged. -/
theorem consumed_message_acked_witness :
    receive_message [] m1 = .ok (some "hello", m1')
    ∧ m1'.acked = m1.acked ++ [m1.nextTag]
    ∧ m1'.nextTag = m1.nextTag + 1 :=
  ⟨rfl, consumed_message_acked_before_return.1 [] m1 "hello" m1' rfl⟩

/-! ## Claim C5 -/

/-- C5: adding a message to a manager whose queue is empty and then fetching
returns exactly that message, and a further fetch on the now-empty queue
returns `None`.  Holds whether or not the connection is alive at fetch time
(a dead one is reopened by the prelude). -/
theorem add_get_roundtrip (st : Mgr) (m : String) (h : st.queue = []) :
    ∃ st1 st2 st3,
      add_to_queue [] st m = .ok (none, st1)
      ∧ receive_message [] st1 = .ok (some m, st2)
      ∧ receive_message [] st2 = .ok (none, st3) := by
  by_cases hc : connAlive st = true
  · refine ⟨{ st with queue := [m] },
      { st with queue := [], acked := st.acked ++ [st.nextTag],
                nextTag := st.nextTag + 1 },
      { st with queue := [], acked := st.acked ++ [st.nextTag],
                nextTag := st.nextTag + 1 }, ?_, ?_, ?_⟩
    · simp [add_to_queue, h]
    · have hc1 : connAlive { st with queue := [m] } = true := hc
      unfold receive_message ensure_open
      simp [hc1, fetch_ok]
    · have hc2 : connAlive
          { st with queue := ([] : List String),
                    acked := st.acked ++ [st.nextTag],
                    nextTag := st.nextTag + 1 } = true := hc
      unfold receive_message ensure_open
      simp [hc2, fetch_ok]
  · have hc' : connAlive st = false := by simpa using hc
    refine ⟨{ st with queue := [m] },
      { st with queue := [], acked := st.acked ++ [st.nextTag],
                nextTag := st.nextTag + 1, hasConn := true, connOpen := true,
                hasChannel := true, declared := st.declared ++ [st.queue_name],
                opens := st.opens + 1 },
      { st with queue := [], acked := st.acked ++ [st.nextTag],
                nextTag := st.nextTag + 1, hasConn := true, connOpen := true,
                hasChannel := true, declared := st.declared ++ [st.queue_name],
                opens := st.opens + 1 }, ?_, ?_, ?_⟩
    · simp [add_to_queue, h]
    · have hc1 : connAlive { st with queue := [m] } = false := hc'
      unfold receive_message ensure_open
      simp [hc1, open_connection, fetch_ok]
    · have hc2 : connAlive
          { st with queue := ([] : List String),
                    acked := st.acked ++ [st.nextTag],
                    nextTag := st.nextTag + 1, hasConn := true,
                    connOpen := true, hasChannel := true,
                    declared := st.declared ++ [st.queue_name],
                    opens := st.opens + 1 } = true := rfl
      unfold receive_message ensure_open
      simp [hc2, fetch_ok]

/-- Witness for C5 at a concrete input: on the fresh empty manager `m0`,
adding "hi" and fetching twice round-trips and then reports absence. -/
theorem add_get_roundtrip_witness :
    m0.queue = [] ∧ ∃ st1 st2 st3,
      add_to_queue [] m0 "hi" = .ok (none, st1)
      ∧ receive_message [] st1 = .ok (some "hi", st2)
      ∧ receive_message [] st2 = .ok (none, st3) :=
  ⟨rfl, add_get_roundtrip m0 "hi" rfl⟩

/-! ## Claim C7 -/

/-- C7: `_close` is a total function (never raises), is idempotent, is a
no-op when no connection exists or it is already closed, and gracefully
terminates the session exactly when one is open. -/
theorem close_idempotent_total :
    ∀ st : Mgr,
      close (close st) = close st
      ∧ (connAlive st = false → close st = st)
      ∧ (connAlive st = true → close st = { st with connOpen := false }) := by
  intro st
  by_cases hc : connAlive st = true
  · have h1 : close st = { st with connOpen := false } := by
      simp [close, hc]
    have h3 : close { st with connOpen := false }
        = { st with connOpen := false } := by
      simp [close, connAlive]
    refine ⟨by rw [h1, h3], ?_, fun _ => h1⟩
    intro hf
    rw [hf] at hc
    simp at hc
  · have hc' : connAlive st = false := by simpa using hc
    have h1 : close st = st := by
      simp [close, hc']
    refine ⟨by rw [h1]; exact h1, fun _ => h1, ?_⟩
    intro ht
    rw [ht] at hc'
    simp at hc'

/-- Witness for C7 at concrete inputs: double close on a live manager, and
close on a never-connected manager. -/
theorem close_idempotent_witness :
    close (close m0) = close m0 ∧ close mClosed = mClosed :=
  ⟨(close_idempotent_total m0).1, (close_idempotent_total mClosed).2.1 rfl⟩

/-! ## Claim C8 -/

/-- C8 counterexample: constructing while the broker rejects the credentials
returns normally with a *disconnected* instance — no connection, no channel,
no queue declared — refuting "the constructor never returns a disconnected
instance". -/
theorem constructor_disconnected_on_auth :
    init "q2" [] .authErr = .ok mAuthFail2
    ∧ mAuthFail2.hasConn = false ∧ mAuthFail2.hasChannel = false
    ∧ mAuthFail2.declared = [] :=
  ⟨rfl, rfl, rfl, rfl⟩

/-- C8 amended: the constructor immediately opens the connection, creates the
channel and declares the queue (there is no separate explicit open step);
when connection setup succeeds the instance is connected, and a non-auth
setup failure propagates out of the constructor — but a swallowed
authentication failure yields a disconnected instance. -/
theorem constructor_opens_eagerly :
    ∀ (q : String) (bq : List String),
      init q bq .ok
        = .ok { queue_name := q, hasConn := true, connOpen := true,
                hasChannel := true, queue := bq, acked := [], nextTag := 0,
                declared := [q], opens := 1 }
      ∧ init q bq .connErr = .error .connErr :=
  fun _ _ => ⟨rfl, rfl⟩

/-! ## Claim C9 -/

/-- C9: the iterator step agrees with `get_next` on every state and fault
schedule — `__next__` yields exactly the message `get_next` would return,
raises `StopIteration` exactly when `get_next` returns `None` (so iteration
never yields `None`), and propagates exactly the same errors. -/
theorem next_agrees_with_get_next :
    ∀ (rounds : List RecvRound) (st : Mgr),
      (∀ m st', next rounds st = .ok (.item m, st')
          ↔ get_next rounds st = .ok (some m, st'))
      ∧ (∀ st', next rounds st = .ok (.stopIteration, st')
          ↔ get_next rounds st = .ok (none, st'))
      ∧ (∀ e, next rounds st = .error e ↔ get_next rounds st = .error e) := by
  intro rounds st
  unfold next get_next
  cases h : receive_message rounds st with
  | error e => simp
  | ok p =>
      obtain ⟨mo, stx⟩ := p
      cases mo <;> simp

/-- Witness for C9 at a concrete input: on the single-message manager `m1`,
the iterator step yields exactly what `get_next` returns. -/
theorem next_agrees_witness :
    next [] m1 = .ok (.item "hello", m1') :=
  ((next_agrees_with_get_next [] m1).1 "hello" m1').mpr rfl

/-! ## Claim C10 -/

/-- The fold of single adds absorbs an error permanently. -/
lemma foldStep_error :
    ∀ (items : List String) (e : RQErr),
      items.foldl foldStep (.error e) = .error e := by
  intro items e
  induction items with
  | nil => rfl
  | cons x xs ih =>
      rw [List.foldl_cons]
      exact ih

/-- Unfolding the fold of single adds one item at a time. -/
lemma foldAdds_cons (scheds : List (List AddRound)) (st : Mgr) (x : String)
    (xs : List String) :
    foldAdds scheds st (x :: xs)
      = match add_to_queue (scheds.headD []) st x with
        | .error e => .error e
        | .ok (_, st') => foldAdds scheds.tail st' xs := by
  unfold foldAdds
  rw [List.foldl_cons]
  cases ha : add_to_queue (scheds.headD []) st x with
  | error e =>
      rw [List.headD_eq_head?] at ha
      simp [foldStep, ha, foldStep_error]
  | ok p =>
      obtain ⟨v, st'⟩ := p
      rw [List.headD_eq_head?] at ha
      simp [foldStep, ha]

/-- C10: `add_list_to_queue` is the fold of single `add_to_queue` calls over
the list in list order, and on the fault-free schedule the queue grows by
exactly the messages of the list, in their original order. -/
theorem add_list_is_fold_of_adds :
    (∀ scheds st items,
        add_list_to_queue scheds st items = foldAdds scheds st items)
    ∧ (∀ st items,
        add_list_to_queue [] st items
          = .ok (none, { st with queue := st.queue ++ items })) := by
  constructor
  · intro scheds st items
    induction items generalizing scheds st with
    | nil => rfl
    | cons x xs ih =>
        rw [foldAdds_cons]
        unfold add_list_to_queue
        cases ha : add_to_queue (scheds.headD []) st x with
        | error e => simp [ha]
        | ok p =>
            obtain ⟨v, st'⟩ := p
            simp [ha]
            exact ih scheds.tail st'
  · intro st items
    induction items generalizing st with
    | nil => simp [add_list_to_queue]
    | cons x xs ih =>
        show add_list_to_queue [] { st with queue := st.queue ++ [x] } xs
          = .ok (none, { st with queue := st.queue ++ x :: xs })
        rw [ih { st with queue := st.queue ++ [x] }]
        simp

end RQM

namespace RManager

/-! ## Claim C6 -/

/-- C6 (`rabbit_manager.py` modelled from the spec): every (re)open declares
the queue with the configured durability flag; a positive TTL is passed as a
millisecond `x-message-ttl` argument equal to `minutes * 60000`, and a zero
TTL passes no TTL argument. -/
theorem openManager_declares_ttl (cfg : Config) (st st' : MState)
    (h : openManager cfg .ok st = .ok st') :
    (0 < cfg.message_ttl_minutes →
        st'.declares = st.declares ++
          [⟨cfg.queue_name, cfg.queue_durable,
            [("x-message-ttl", cfg.message_ttl_minutes * 60000)]⟩])
    ∧ (cfg.message_ttl_minutes = 0 →
        st'.declares = st.declares ++
          [⟨cfg.queue_name, cfg.queue_durable, []⟩]) := by
  simp [openManager] at h
  constructor
  · intro ht
    rw [← h]
    simp [ttlArguments, ht]
  · intro ht
    rw [← h]
    simp [ttlArguments, ht]

/-- Witness for C6 at the scenario of the spec: `message_ttl_minutes = 10` on
queue "q1" declares with a millisecond TTL argument of 600000. -/
theorem openManager_declares_ttl_witness :
    openManager cfg10 .ok mR0 = .ok mR10
    ∧ 0 < cfg10.message_ttl_minutes
    ∧ mR10.declares
        = mR0.declares ++ [⟨"q1", true, [("x-message-ttl", 600000)]⟩] :=
  ⟨rfl, by decide,
   (openManager_declares_ttl cfg10 mR0 mR10 rfl).1 (by decide)⟩

end RManager
